import Mathlib

/-!
# Verification of the proton-filters core logic

Shallow embedding of the repository's two core logic units — the
folder/label conflict validator (server copy in `src/backend/src/index.ts`,
client copy in the filter-form component) and the Sieve script generator
(`generateSieveScript`) — together with the batch-delete route handler.
Each definition mirrors the corresponding TypeScript function; theorems
settle the specification claims about them.
-/

namespace ProtonFilters

/-- The persisted filter record (`Filter` in `storage.ts` / `types.ts`).
`expirationDays : number | null` becomes `Option Int`; everything else is
carried over field by field. -/
structure Filter where
  id : String
  name : String
  fromAddresses : List String
  toAddress : String
  expirationDays : Option Int
  markRead : Bool
  addYearLabel : Bool
  targetFolder : String
  labels : List String
  updatedAt : String
deriving Repr, DecidableEq

/-- JavaScript's `String.prototype.toLowerCase` on the character list. -/
def jsToLowerCase (s : String) : String :=
  String.mk (s.data.map Char.toLower)

/-- JavaScript's `String.prototype.split` with a single-character
separator, over character lists: `"" ↦ [""]`, and a trailing separator
yields a trailing empty segment. -/
def splitOnChar (sep : Char) : List Char → List (List Char)
  | [] => [[]]
  | c :: cs =>
    if c = sep then [] :: splitOnChar sep cs
    else
      match splitOnChar sep cs with
      | [] => [[c]]
      | seg :: segs => (c :: seg) :: segs

/-- `folderPath.split('/')`. -/
def jsSplitSlash (s : String) : List String :=
  (splitOnChar '/' s.data).map String.mk

/-- JavaScript's `String.prototype.includes` with a single-character
needle, as used by `addr.includes('@')`. -/
def jsIncludesChar (needle : Char) (s : String) : Bool :=
  s.data.contains needle

/-- `getFolderLeafName` (identical in both copies): last slash-delimited
component of a folder path, empty string for an empty path. -/
def getFolderLeafName (folderPath : String) : String :=
  if folderPath = "" then ""
  else ((jsSplitSlash folderPath).getLast?).getD ""

/-- The `for (const label of labels)` loop shared verbatim by both copies of
`validateFolderLabelConflict` (check 2): return the first candidate label
that case-insensitively matches some existing folder leaf name, together
with the matching leaf name. -/
def findLabelFolderConflict (existingFolderLeafNames : List String) :
    List String → Option (String × String)
  | [] => none
  | label :: rest =>
    match existingFolderLeafNames.find? (fun f => jsToLowerCase f == jsToLowerCase label) with
    | some conflictingFolder => some (label, conflictingFolder)
    | none => findLabelFolderConflict existingFolderLeafNames rest

namespace Backend

/-- Server-side `validateFolderLabelConflict` from `src/backend/src/index.ts`:
returns `some message` on a conflict, `none` on acceptance. -/
def validateFolderLabelConflict (targetFolder : String) (labels : List String)
    (allFilters : List Filter) (excludeId : Option String) : Option String :=
  let otherFilters := allFilters.filter (fun f => some f.id != excludeId)
  let existingFolderLeafs :=
    (otherFilters.map (fun f => getFolderLeafName f.targetFolder)).filter
      (fun name => name != "")
  let existingLabels := otherFilters.flatMap (fun f => f.labels)
  let folderLeaf := jsToLowerCase (getFolderLeafName targetFolder)
  match (if folderLeaf ≠ "" then
           existingLabels.find? (fun l => jsToLowerCase l == folderLeaf)
         else none) with
  | some conflictingLabel =>
    some ("Folder name \"" ++ getFolderLeafName targetFolder ++
      "\" conflicts with label \"" ++ conflictingLabel ++
      "\" used by another filter. Proton Mail does not allow folders and labels to share the same name.")
  | none =>
    match findLabelFolderConflict existingFolderLeafs labels with
    | some (label, conflictingFolder) =>
      some ("Label \"" ++ label ++ "\" conflicts with folder name \"" ++
        conflictingFolder ++
        "\" used by another filter. Proton Mail does not allow folders and labels to share the same name.")
    | none =>
      match (if folderLeaf ≠ "" ∧ labels.length > 0 then
               labels.find? (fun label => jsToLowerCase label == folderLeaf)
             else none) with
      | some conflictingLabel =>
        some ("Folder name \"" ++ getFolderLeafName targetFolder ++
          "\" conflicts with label \"" ++ conflictingLabel ++
          "\". Proton Mail does not allow folders and labels to share the same name.")
      | none => none

end Backend

/-- The `conflictType` values of the client validator
(`'local' | 'external-label' | 'external-folder'`). -/
inductive ConflictType where
  | localConflict
  | externalLabel
  | externalFolder
deriving Repr, DecidableEq

/-- The client validator's `ValidationResult`. -/
structure ValidationResult where
  error : Option String
  conflictingLabel : Option String
  conflictType : Option ConflictType
deriving Repr, DecidableEq

namespace Frontend

/-- Client-side `validateFolderLabelConflict` from the filter-form component:
same checks as the server copy, over precomputed lists of the other records'
non-empty folder leaf names and labels. -/
def validateFolderLabelConflict (targetFolder : String) (labels : List String)
    (existingFolderLeafNames : List String) (existingLabels : List String) :
    ValidationResult :=
  let folderLeaf := jsToLowerCase (getFolderLeafName targetFolder)
  match (if folderLeaf ≠ "" then
           existingLabels.find? (fun l => jsToLowerCase l == folderLeaf)
         else none) with
  | some conflictingLabel =>
    { error := some ("Folder name \"" ++ getFolderLeafName targetFolder ++
        "\" conflicts with label \"" ++ conflictingLabel ++
        "\" used by another filter. Proton Mail does not allow folders and labels to share the same name.")
      conflictingLabel := some conflictingLabel
      conflictType := some ConflictType.externalLabel }
  | none =>
    match findLabelFolderConflict existingFolderLeafNames labels with
    | some (label, conflictingFolder) =>
      { error := some ("Label \"" ++ label ++ "\" conflicts with folder name \"" ++
          conflictingFolder ++
          "\" used by another filter. Proton Mail does not allow folders and labels to share the same name.")
        conflictingLabel := some label
        conflictType := some ConflictType.externalFolder }
    | none =>
      match (if folderLeaf ≠ "" ∧ labels.length > 0 then
               labels.find? (fun label => jsToLowerCase label == folderLeaf)
             else none) with
      | some conflictingLabel =>
        { error := some ("Folder name \"" ++ getFolderLeafName targetFolder ++
            "\" conflicts with label \"" ++ conflictingLabel ++
            "\". Proton Mail does not allow folders and labels to share the same name.")
          conflictingLabel := some conflictingLabel
          conflictType := some ConflictType.localConflict }
      | none => { error := none, conflictingLabel := none, conflictType := none }

end Frontend

/-! ## The Sieve script generator (`generateSieveScript`)

The TypeScript function reads the ambient clock (`new Date()`) in exactly
two ways: `getFullYear().toString()` for the optional year label and
`toLocaleString('en-US', …)` for the generation-timestamp comment. A
`Clock` value carries those two observations, so the generator becomes a
pure function of the record and the frozen clock. -/

/-- The two projections of `new Date()` used by `generateSieveScript`. -/
structure Clock where
  timestamp : String
  currentYear : String
deriving Repr, DecidableEq

/-- The generator's `effectiveLabels`: the record's labels plus, when
`addYearLabel` is set and the year string is not already present, the
current year appended at the end. -/
def effectiveLabels (clock : Clock) (f : Filter) : List String :=
  if f.addYearLabel ∧ ¬ f.labels.contains clock.currentYear then
    f.labels ++ [clock.currentYear]
  else f.labels

/-- The generator's `requires` list: `fileinto` when a folder is set or the
effective label set is non-empty, always `imap4flags`, and
`vnd.proton.expire` when an expiration is set. -/
def sieveRequires (clock : Clock) (f : Filter) : List String :=
  (if f.targetFolder ≠ "" ∨ effectiveLabels clock f ≠ [] then ["fileinto"] else [])
    ++ ["imap4flags"]
    ++ (if f.expirationDays ≠ none then ["vnd.proton.expire"] else [])

/-- The generator's `fromConditions` list, built inside the
`fromAddresses.length > 0` branch: addresses containing `@` are full
emails matched with `:is` (singleton, or one bracketed list), the rest are
domain fragments matched with `:domain :contains`. -/
def fromConditions (f : Filter) : List String :=
  let fullEmails := f.fromAddresses.filter (fun addr => jsIncludesChar '@' addr)
  let domains := f.fromAddresses.filter (fun addr => !(jsIncludesChar '@' addr))
  (if fullEmails.length = 1 then
     ["address :is \"from\" \"" ++ fullEmails.headI ++ "\""]
   else if fullEmails.length > 1 then
     ["address :is \"from\" [" ++
       String.intercalate ", " (fullEmails.map (fun addr => "\"" ++ addr ++ "\"")) ++ "]"]
   else [])
    ++ domains.map (fun domain => "address :domain :contains \"from\" \"" ++ domain ++ "\"")

/-- The generator's `conditions` list: the fixed not-already-deleted guard,
then the from-conditions (bare when there is a single one, wrapped in
`anyof` when there are several), then the optional to-address test. -/
def sieveConditions (f : Filter) : List String :=
  ["not hasflag \"\\\\Deleted\""]
    ++ (if f.fromAddresses.length > 0 then
          (if (fromConditions f).length = 1 then [(fromConditions f).headI]
           else if (fromConditions f).length > 1 then
             ["anyof (" ++ String.intercalate ", " (fromConditions f) ++ ")"]
           else [])
        else [])
    ++ (if f.toAddress ≠ "" then
          ["address :is \"to\" \"" ++ f.toAddress ++ "\""]
        else [])

/-- The generator's `actions` list: expire, then mark-as-read, then one
`fileinto` per effective label, then `fileinto` for the target folder, and
finally `stop;` when a folder or label is configured and `keep;` otherwise. -/
def sieveActions (clock : Clock) (f : Filter) : List String :=
  (match f.expirationDays with
   | some days => ["expire \"day\" \"" ++ toString days ++ "\";"]
   | none => [])
    ++ (if f.markRead then ["addflag \"\\\\Seen\";"] else [])
    ++ (effectiveLabels clock f).map (fun label => "fileinto \"" ++ label ++ "\";")
    ++ (if f.targetFolder ≠ "" then ["fileinto \"" ++ f.targetFolder ++ "\";"] else [])
    ++ (if f.targetFolder ≠ "" ∨ effectiveLabels clock f ≠ [] then ["stop;"] else ["keep;"])

/-- The generator's `lines` list: the two comment lines and a blank, the
`require` header when some extension is required, the `if allof (…) {`
line (or the `if true {` fallback when the condition list is empty), the
indented actions, and the closing lines. -/
def sieveLines (clock : Clock) (f : Filter) : List String :=
  ["# Filter: " ++ f.name, "# Generated: " ++ clock.timestamp, ""]
    ++ (if sieveRequires clock f ≠ [] then
          ["require [" ++
             String.intercalate ", "
               ((sieveRequires clock f).map (fun r => "\"" ++ r ++ "\"")) ++ "];",
           ""]
        else [])
    ++ (if sieveConditions f ≠ [] then
          ["if allof (" ++ String.intercalate ",\n       " (sieveConditions f) ++ ") \x7b"]
        else ["if true \x7b"])
    ++ (sieveActions clock f).map (fun action => "    " ++ action)
    ++ ["\x7d", ""]

/-- `generateSieveScript`: the joined script text. -/
def generateSieveScript (clock : Clock) (f : Filter) : String :=
  String.intercalate "\n" (sieveLines clock f)

/-! ## The batch-delete route (`DELETE /api/filters`)

The handler parses `ids` from the request body, rejects a missing,
non-array, or empty list with a 400 response before touching the stored
collection, and otherwise removes every record whose id is in the list,
reporting the number removed. The body is modelled as `Option (List String)`
(`none` = missing or non-array `ids`); the stored collection is passed and
returned explicitly. -/

/-- The observable response of the delete route. -/
structure DeleteResponse where
  status : Nat
  error : Option String
  deleted : Option Nat
deriving Repr, DecidableEq

/-- The `app.delete('/api/filters')` handler over an explicit store. -/
def deleteFiltersRoute (body : Option (List String)) (store : List Filter) :
    DeleteResponse × List Filter :=
  match body with
  | none => ({ status := 400, error := some "ids array is required", deleted := none }, store)
  | some ids =>
    if ids.length = 0 then
      ({ status := 400, error := some "ids array is required", deleted := none }, store)
    else
      let remainingFilters := store.filter (fun f => !(ids.contains f.id))
      ({ status := 200, error := none,
         deleted := some (store.length - remainingFilters.length) }, remainingFilters)

/-! ## Claim-side reformulation of the conflict validator

`claimedConflictKind` restates the spec's precedence description of the
validator over a list of *other* records, returning only the conflict
classification: (1) non-empty candidate folder leaf vs any other record's
label; (2) any candidate label vs any other record's non-empty folder
leaf; (3) candidate label vs the candidate's own (non-empty) folder leaf;
(4) accept. All comparisons are case-insensitive. -/

/-- The validator decision as the specification describes it (with step 3
guarded by a non-empty candidate folder leaf, as the code requires). -/
def claimedConflictKind (targetFolder : String) (labels : List String)
    (others : List Filter) : Option ConflictType :=
  let leaf := jsToLowerCase (getFolderLeafName targetFolder)
  if leaf ≠ "" ∧ others.any (fun f => f.labels.any (fun l => jsToLowerCase l == leaf)) then
    some ConflictType.externalLabel
  else if labels.any (fun lb => others.any (fun f =>
      (getFolderLeafName f.targetFolder != "") &&
        (jsToLowerCase (getFolderLeafName f.targetFolder) == jsToLowerCase lb))) then
    some ConflictType.externalFolder
  else if leaf ≠ "" ∧ labels.any (fun lb => jsToLowerCase lb == leaf) then
    some ConflictType.localConflict
  else none

/-! ## Concrete records used by the scenario claims -/

/-- Scenario A record: one full from-address, mark-as-read, folder `Work`. -/
def filterScenarioA : Filter :=
  { id := "a", name := "Scenario A", fromAddresses := ["boss@example.com"],
    toAddress := "", expirationDays := none, markRead := true,
    addYearLabel := false, targetFolder := "Work", labels := [],
    updatedAt := "" }

/-- Scenario B record as the spec writes it: `fromAddresses`
`["@newsletter.com"]`, no folder, labels, expiration or flags. -/
def filterScenarioB : Filter :=
  { id := "b", name := "Scenario B", fromAddresses := ["@newsletter.com"],
    toAddress := "", expirationDays := none, markRead := false,
    addYearLabel := false, targetFolder := "", labels := [],
    updatedAt := "" }

/-- Scenario B record with a bare domain fragment (no `@`), the form the
generator's domain branch actually accepts. -/
def filterScenarioBBare : Filter :=
  { id := "b2", name := "Scenario B bare", fromAddresses := ["newsletter.com"],
    toAddress := "", expirationDays := none, markRead := false,
    addYearLabel := false, targetFolder := "", labels := [],
    updatedAt := "" }

/-- A fixed clock for the concrete scenarios. -/
def frozenClock : Clock := { timestamp := "Sat, Oct 11, 2025, 12:00 PM", currentYear := "2025" }

/-! ## Helper lemmas -/

/-- The generator always requires at least one extension (`imap4flags`). -/
theorem sieveRequires_ne_nil (clock : Clock) (f : Filter) :
    sieveRequires clock f ≠ [] := by
  unfold sieveRequires
  intro h
  rcases List.append_eq_nil.mp h with ⟨h1, -⟩
  rcases List.append_eq_nil.mp h1 with ⟨-, h2⟩
  exact List.cons_ne_nil _ _ h2

/-- The generator's condition list always contains the not-deleted guard. -/
theorem sieveConditions_ne_nil (f : Filter) : sieveConditions f ≠ [] := by
  unfold sieveConditions
  intro h
  rcases List.append_eq_nil.mp h with ⟨h1, -⟩
  rcases List.append_eq_nil.mp h1 with ⟨h2, -⟩
  exact List.cons_ne_nil _ _ h2

/-- The check-2 loop returns nothing iff no candidate label matches any
existing folder leaf name case-insensitively. -/
theorem findLabelFolderConflict_eq_none (L : List String) (ls : List String) :
    findLabelFolderConflict L ls = none ↔
      ∀ lb ∈ ls, ∀ fl ∈ L, ¬ (jsToLowerCase fl == jsToLowerCase lb) := by
  induction ls with
  | nil => simp [findLabelFolderConflict]
  | cons lb rest ih =>
    rw [findLabelFolderConflict]
    rcases h : L.find? (fun f => jsToLowerCase f == jsToLowerCase lb) with _ | fl
    · have := List.find?_eq_none.mp h
      simp only [List.mem_cons]
      constructor
      · intro hrec x hx fl' hfl'
        rcases hx with rfl | hx
        · exact fun hb => (this fl' hfl') hb
        · exact ih.mp hrec x hx fl' hfl'
      · intro hall
        exact ih.mpr (fun x hx fl' hfl' => hall x (Or.inr hx) fl' hfl')
    · simp only [reduceCtorEq, false_iff]
      push_neg
      refine ⟨lb, List.mem_cons_self _ _, fl, List.mem_of_find?_eq_some h, ?_⟩
      have := List.find?_some h
      simpa using this

/-- The check-2 loop's positive result is a genuine case-insensitive match
between a candidate label and an existing folder leaf name. -/
theorem findLabelFolderConflict_eq_some (L ls : List String) (lb fl : String)
    (h : findLabelFolderConflict L ls = some (lb, fl)) :
    lb ∈ ls ∧ fl ∈ L ∧ jsToLowerCase fl == jsToLowerCase lb := by
  induction ls with
  | nil => simp [findLabelFolderConflict] at h
  | cons x rest ih =>
    rw [findLabelFolderConflict] at h
    rcases hf : L.find? (fun f => jsToLowerCase f == jsToLowerCase x) with _ | fl'
    · rw [hf] at h
      obtain ⟨h1, h2, h3⟩ := ih h
      exact ⟨List.mem_cons_of_mem _ h1, h2, h3⟩
    · rw [hf] at h
      simp only [Option.some.injEq, Prod.mk.injEq] at h
      obtain ⟨rfl, rfl⟩ := h
      exact ⟨List.mem_cons_self _ _, List.mem_of_find?_eq_some hf,
        by simpa using List.find?_some hf⟩

/-- A list's length splits into the parts kept and dropped by a filter. -/
theorem length_filter_split {α} (p : α → Bool) (l : List α) :
    (l.filter p).length + (l.filter (fun a => !(p a))).length = l.length := by
  induction l with
  | nil => rfl
  | cons a t ih =>
    cases hp : p a <;> simp [List.filter_cons, hp] <;> omega

/-- Between two duplicate-free lists, counting the elements of one that
occur in the other is symmetric. -/
theorem nodup_filter_contains_comm (A B : List String)
    (hA : A.Nodup) (hB : B.Nodup) :
    (A.filter (fun a => B.contains a)).length =
      (B.filter (fun b => A.contains b)).length := by
  have h1 : (A.filter (fun a => B.contains a)).toFinset =
      A.toFinset.filter (fun a => B.contains a) := List.toFinset_filter A _
  have h2 : (B.filter (fun b => A.contains b)).toFinset =
      B.toFinset.filter (fun b => A.contains b) := List.toFinset_filter B _
  have hA' : (A.filter (fun a => B.contains a)).Nodup := hA.filter _
  have hB' : (B.filter (fun b => A.contains b)).Nodup := hB.filter _
  rw [← List.toFinset_card_of_nodup hA', ← List.toFinset_card_of_nodup hB', h1, h2]
  congr 1
  ext x
  simp [List.mem_filter]
  tauto

/-! ## Claim theorems -/

/-- C1 counterexample: with no target folder (folder leaf segment `""`), the
single candidate label `""`, and no other records, the candidate label is
case-insensitively equal to the candidate's own folder leaf segment, yet
both validator copies accept; the claimed step (3) does not fire when the
folder leaf is empty. -/
theorem validator_empty_leaf_intra_cex :
    Backend.validateFolderLabelConflict "" [""] [] none = none
    ∧ (Frontend.validateFolderLabelConflict "" [""] [] []).error = none
    ∧ jsToLowerCase "" = jsToLowerCase (getFolderLeafName "") := by
  decide

/-- C1 (amended): the validator applies its checks in fixed precedence
order with the first match winning — (1) a non-empty candidate folder leaf
matching some other record's label case-insensitively yields the
inter-record folder-vs-label rejection; (2) otherwise a candidate label
matching some other record's non-empty folder leaf yields the inter-record
label-vs-folder rejection; (3) otherwise, *when the candidate folder leaf
is non-empty*, a candidate label equal to it case-insensitively yields the
intra-record rejection; (4) otherwise it accepts. Stated as: on the other
records' non-empty folder leaf names and concatenated labels, the
validator's conflict classification equals the claimed precedence
function. -/
theorem validator_precedence (targetFolder : String) (labels : List String)
    (others : List Filter) :
    (Frontend.validateFolderLabelConflict targetFolder labels
        ((others.map (fun f => getFolderLeafName f.targetFolder)).filter
          (fun name => name != ""))
        (others.flatMap (fun f => f.labels))).conflictType
      = claimedConflictKind targetFolder labels others := by
  simp only [Frontend.validateFolderLabelConflict, claimedConflictKind]
  split
  next cl heq =>
    by_cases hleaf : jsToLowerCase (getFolderLeafName targetFolder) ≠ ""
    · rw [if_pos hleaf] at heq
      have hmem := List.mem_of_find?_eq_some heq
      have hp := List.find?_some heq
      rw [List.mem_flatMap] at hmem
      obtain ⟨f, hf, hcl⟩ := hmem
      have hany : (others.any fun f =>
          f.labels.any fun l =>
            jsToLowerCase l == jsToLowerCase (getFolderLeafName targetFolder)) = true := by
        rw [List.any_eq_true]
        exact ⟨f, hf, by rw [List.any_eq_true]; exact ⟨cl, hcl, hp⟩⟩
      rw [if_pos ⟨hleaf, hany⟩]
    · rw [if_neg hleaf] at heq
      simp at heq
  next heq =>
    have hnc1 : ¬ (jsToLowerCase (getFolderLeafName targetFolder) ≠ "" ∧
        (others.any fun f =>
          f.labels.any fun l =>
            jsToLowerCase l == jsToLowerCase (getFolderLeafName targetFolder)) = true) := by
      rintro ⟨hleaf, hany⟩
      rw [if_pos hleaf, List.find?_eq_none] at heq
      rw [List.any_eq_true] at hany
      obtain ⟨f, hf, hany2⟩ := hany
      rw [List.any_eq_true] at hany2
      obtain ⟨l, hl, hpl⟩ := hany2
      exact heq l (List.mem_flatMap.mpr ⟨f, hf, hl⟩) hpl
    rw [if_neg hnc1]
    split
    next label cf heq2 =>
      obtain ⟨hlb, hfl, hbeq⟩ := findLabelFolderConflict_eq_some _ _ _ _ heq2
      rw [List.mem_filter, List.mem_map] at hfl
      obtain ⟨⟨f, hf, rfl⟩, hne⟩ := hfl
      have hany : (labels.any fun lb =>
          others.any fun f =>
            getFolderLeafName f.targetFolder != "" &&
              jsToLowerCase (getFolderLeafName f.targetFolder) == jsToLowerCase lb) = true := by
        rw [List.any_eq_true]
        refine ⟨label, hlb, ?_⟩
        rw [List.any_eq_true]
        exact ⟨f, hf, by rw [Bool.and_eq_true]; exact ⟨hne, hbeq⟩⟩
      rw [if_pos hany]
    next heq2 =>
      have hnc2 : ¬ ((labels.any fun lb =>
          others.any fun f =>
            getFolderLeafName f.targetFolder != "" &&
              jsToLowerCase (getFolderLeafName f.targetFolder) == jsToLowerCase lb) = true) := by
        intro hany
        rw [List.any_eq_true] at hany
        obtain ⟨lb, hlb, hany2⟩ := hany
        rw [List.any_eq_true] at hany2
        obtain ⟨f, hf, hb⟩ := hany2
        rw [Bool.and_eq_true] at hb
        obtain ⟨hne, hbeq⟩ := hb
        have hmem : getFolderLeafName f.targetFolder ∈
            (others.map (fun f => getFolderLeafName f.targetFolder)).filter
              (fun name => name != "") :=
          List.mem_filter.mpr ⟨List.mem_map.mpr ⟨f, hf, rfl⟩, hne⟩
        exact (findLabelFolderConflict_eq_none _ _).mp heq2 lb hlb _ hmem hbeq
      rw [if_neg hnc2]
      split
      next cl heq3 =>
        by_cases hcond : jsToLowerCase (getFolderLeafName targetFolder) ≠ "" ∧
            labels.length > 0
        · rw [if_pos hcond] at heq3
          have hcl := List.mem_of_find?_eq_some heq3
          have hp := List.find?_some heq3
          have hany : (labels.any fun lb =>
              jsToLowerCase lb == jsToLowerCase (getFolderLeafName targetFolder)) = true := by
            rw [List.any_eq_true]
            exact ⟨cl, hcl, hp⟩
          rw [if_pos ⟨hcond.1, hany⟩]
        · rw [if_neg hcond] at heq3
          simp at heq3
      next heq3 =>
        have hnc3 : ¬ (jsToLowerCase (getFolderLeafName targetFolder) ≠ "" ∧
            (labels.any fun lb =>
              jsToLowerCase lb == jsToLowerCase (getFolderLeafName targetFolder)) = true) := by
          rintro ⟨hleaf, hany⟩
          rw [List.any_eq_true] at hany
          obtain ⟨lb, hlb, hp⟩ := hany
          have hlen : labels.length > 0 := List.length_pos.mpr (List.ne_nil_of_mem hlb)
          rw [if_pos ⟨hleaf, hlen⟩, List.find?_eq_none] at heq3
          exact heq3 lb hlb hp
        rw [if_neg hnc3]

/-- C2: fed the server's derived inputs — the non-empty folder leaf names
and the concatenated labels of all records other than the excluded one —
the client copy of the validator returns exactly the server copy's
decision and conflict message. -/
theorem validator_copies_agree (targetFolder : String) (labels : List String)
    (allFilters : List Filter) (excludeId : Option String) :
    (Frontend.validateFolderLabelConflict targetFolder labels
        (((allFilters.filter (fun f => some f.id != excludeId)).map
            (fun f => getFolderLeafName f.targetFolder)).filter (fun name => name != ""))
        ((allFilters.filter (fun f => some f.id != excludeId)).flatMap (fun f => f.labels))).error
      = Backend.validateFolderLabelConflict targetFolder labels allFilters excludeId := by
  simp only [Frontend.validateFolderLabelConflict, Backend.validateFolderLabelConflict]
  split
  next cl heq => rfl
  next heq =>
    split
    next lb cf heq2 => rfl
    next heq2 =>
      split
      next cl heq3 => rfl
      next heq3 => rfl

/-- C3 counterexample: for the record with `fromAddresses = ["@newsletter.com"]`
(which contains `@` and is therefore classified as a full address), the
generated from-condition is `address :is "from" "@newsletter.com"`, and the
claimed `address :domain :contains "from" "newsletter.com"` condition does
not occur in the condition list. -/
theorem scenarioB_at_domain_uses_is :
    sieveConditions filterScenarioB =
      ["not hasflag \"\\\\Deleted\"", "address :is \"from\" \"@newsletter.com\""]
    ∧ "address :domain :contains \"from\" \"newsletter.com\"" ∉
        sieveConditions filterScenarioB := by
  decide

/-- C3 (amended): for a record whose only from-pattern is the bare domain
fragment `"newsletter.com"` (no `@`) with no folder, labels, expiration or
flags, the from-condition is `address :domain :contains "from"
"newsletter.com"` and the action list is exactly `keep;`. -/
theorem scenarioB_bare_domain_script :
    sieveConditions filterScenarioBBare =
      ["not hasflag \"\\\\Deleted\"",
       "address :domain :contains \"from\" \"newsletter.com\""]
    ∧ sieveActions frozenClock filterScenarioBBare = ["keep;"] := by
  decide

/-- C4: the generator's action list is always the concatenation, in order,
of the expire action (when an expiration is set), the mark-as-read flag
action (when `markRead` is set), one `fileinto` per effective label in
iteration order, the `fileinto` for the target folder (when set), and a
final `stop;` exactly when some `fileinto` action was emitted, `keep;`
otherwise — and nothing else. -/
theorem sieveActions_order (clock : Clock) (f : Filter) :
    sieveActions clock f =
      (match f.expirationDays with
        | some days => ["expire \"day\" \"" ++ toString days ++ "\";"]
        | none => [])
      ++ (if f.markRead then ["addflag \"\\\\Seen\";"] else [])
      ++ (effectiveLabels clock f).map (fun label => "fileinto \"" ++ label ++ "\";")
      ++ (if f.targetFolder ≠ "" then ["fileinto \"" ++ f.targetFolder ++ "\";"] else [])
      ++ (if ((effectiveLabels clock f).map (fun label => "fileinto \"" ++ label ++ "\";")
              ++ (if f.targetFolder ≠ "" then ["fileinto \"" ++ f.targetFolder ++ "\";"] else []))
              ≠ [] then
            ["stop;"]
          else ["keep;"]) := by
  rcases eq_or_ne f.targetFolder "" with h1 | h1 <;>
    rcases eq_or_ne (effectiveLabels clock f) [] with h2 | h2 <;>
    simp [sieveActions, h1, h2]

/-- C5: the generator requires `fileinto` exactly when a target folder is
set or the effective label set is non-empty, always requires `imap4flags`,
requires `vnd.proton.expire` exactly when an expiration is set; the
require header (line 3 of the script) lists exactly the required extension
names, quoted and comma-joined, and is emitted whenever some extension is
required (which is always, so the empty-`requires` branch never fires). -/
theorem sieveRequires_spec (clock : Clock) (f : Filter) :
    ("fileinto" ∈ sieveRequires clock f ↔
      (f.targetFolder ≠ "" ∨ effectiveLabels clock f ≠ []))
    ∧ "imap4flags" ∈ sieveRequires clock f
    ∧ ("vnd.proton.expire" ∈ sieveRequires clock f ↔ f.expirationDays ≠ none)
    ∧ (sieveLines clock f)[3]? =
        some ("require [" ++ String.intercalate ", "
          ((sieveRequires clock f).map (fun r => "\"" ++ r ++ "\"")) ++ "];") := by
  refine ⟨?_, ?_, ?_, ?_⟩
  · by_cases hc : f.targetFolder ≠ "" ∨ effectiveLabels clock f ≠ [] <;>
      by_cases he : f.expirationDays ≠ none <;>
      simp [sieveRequires, hc, he]
  · by_cases hc : f.targetFolder ≠ "" ∨ effectiveLabels clock f ≠ [] <;>
      by_cases he : f.expirationDays ≠ none <;>
      simp [sieveRequires, hc, he]
  · by_cases hc : f.targetFolder ≠ "" ∨ effectiveLabels clock f ≠ [] <;>
      by_cases he : f.expirationDays ≠ none <;>
      simp [sieveRequires, hc, he]
  · unfold sieveLines
    rw [if_pos (sieveRequires_ne_nil clock f)]
    simp [List.cons_append, List.nil_append, List.getElem?_cons_succ, List.getElem?_cons_zero]

/-- C6: the generated condition list is never empty and always starts with
the not-already-deleted guard `not hasflag "\\Deleted"`, so the script's
condition line (line 5) is always the `if allof (…) {` form with that
guard as first conjunct and the `if true {` fallback branch is never
taken. -/
theorem sieveConditions_guard (clock : Clock) (f : Filter) :
    sieveConditions f ≠ []
    ∧ (sieveConditions f).head? = some "not hasflag \"\\\\Deleted\""
    ∧ (sieveLines clock f)[5]? =
        some ("if allof (" ++
          String.intercalate ",\n       " (sieveConditions f) ++ ") \x7b") := by
  refine ⟨sieveConditions_ne_nil f, rfl, ?_⟩
  unfold sieveLines
  rw [if_pos (sieveRequires_ne_nil clock f), if_pos (sieveConditions_ne_nil f)]
  simp [List.cons_append, List.nil_append, List.getElem?_cons_succ, List.getElem?_cons_zero]

/-- C7: for the scenario-A record (`from boss@example.com`, mark read,
folder `Work`), the generator requires exactly `fileinto` and `imap4flags`,
its condition list is the not-deleted guard followed by
`address :is "from" "boss@example.com"` (joined under `if allof`), and its
actions are `addflag "\\Seen";`, `fileinto "Work";`, `stop;` in order. -/
theorem scenarioA_script :
    sieveRequires frozenClock filterScenarioA = ["fileinto", "imap4flags"]
    ∧ sieveConditions filterScenarioA =
        ["not hasflag \"\\\\Deleted\"", "address :is \"from\" \"boss@example.com\""]
    ∧ sieveActions frozenClock filterScenarioA =
        ["addflag \"\\\\Seen\";", "fileinto \"Work\";", "stop;"]
    ∧ ("if allof (not hasflag \"\\\\Deleted\",\n       address :is \"from\" \"boss@example.com\") \x7b")
        ∈ sieveLines frozenClock filterScenarioA := by
  decide

/-- C8: with the clock frozen (the generator's two clock observations — the
rendered timestamp and the current-year string — held fixed), any two runs
of `generateSieveScript` on the same record produce byte-identical output. -/
theorem generateSieveScript_frozen_clock (c1 c2 : Clock) (f : Filter)
    (ht : c1.timestamp = c2.timestamp) (hy : c1.currentYear = c2.currentYear) :
    generateSieveScript c1 f = generateSieveScript c2 f := by
  cases c1
  cases c2
  cases ht
  cases hy
  rfl

/-- Witness for C8 at a concrete clock and record. -/
theorem generateSieveScript_frozen_clock_witness :
    (Clock.mk "ts" "2025").timestamp = (Clock.mk "ts" "2025").timestamp
    ∧ generateSieveScript (Clock.mk "ts" "2025")
          (Filter.mk "w" "W" [] "" none false false "" [] "")
        = generateSieveScript (Clock.mk "ts" "2025")
          (Filter.mk "w" "W" [] "" none false false "" [] "") :=
  ⟨rfl, generateSieveScript_frozen_clock _ _ (Filter.mk "w" "W" [] "" none false false "" [] "") rfl rfl⟩

/-- C10: a batch-delete request whose body lacks a usable `ids` array
(modelled `none`) or carries an empty one is rejected with a 400 response
and the fixed error message, and the stored collection is returned
unchanged. -/
theorem deleteRoute_rejects_bad_ids (store : List Filter) :
    deleteFiltersRoute none store =
      ({ status := 400, error := some "ids array is required", deleted := none }, store)
    ∧ deleteFiltersRoute (some []) store =
      ({ status := 400, error := some "ids array is required", deleted := none }, store) :=
  ⟨rfl, rfl⟩

/-- C9: a batch-delete request with a non-empty duplicate-free id list
against a collection with duplicate-free record ids succeeds (status 200,
no error), keeps exactly the records whose id is not requested (in order,
unchanged), removes exactly as many records as there are requested ids
occurring in the collection, and reports that number as `deleted` —
unknown ids are silently ignored. -/
theorem deleteRoute_batch_delete (ids : List String) (store : List Filter)
    (hne : ids ≠ []) (hids : ids.Nodup) (hstore : (store.map Filter.id).Nodup) :
    (deleteFiltersRoute (some ids) store).1.status = 200
    ∧ (deleteFiltersRoute (some ids) store).1.error = none
    ∧ (deleteFiltersRoute (some ids) store).2 =
        store.filter (fun f => !(ids.contains f.id))
    ∧ (store.filter (fun f => ids.contains f.id)).length =
        (ids.filter (fun i => store.any (fun f => f.id == i))).length
    ∧ (deleteFiltersRoute (some ids) store).1.deleted =
        some ((ids.filter (fun i => store.any (fun f => f.id == i))).length) := by
  have hcount : (store.filter (fun f => ids.contains f.id)).length =
      (ids.filter (fun i => store.any (fun f => f.id == i))).length := by
    have hmap : (store.filter (fun f => ids.contains f.id)).length =
        ((store.map Filter.id).filter (fun a => ids.contains a)).length := by
      rw [List.filter_map, List.length_map]
      rfl
    have hcomm := nodup_filter_contains_comm (store.map Filter.id) ids hstore hids
    have hpt : ids.filter (fun i => (store.map Filter.id).contains i) =
        ids.filter (fun i => store.any (fun f => f.id == i)) := by
      apply List.filter_congr
      intro i _
      refine Bool.eq_iff_iff.mpr ?_
      simp [List.any_eq_true, beq_iff_eq, List.mem_map]
    calc (store.filter (fun f => ids.contains f.id)).length
        = ((store.map Filter.id).filter (fun a => ids.contains a)).length := hmap
      _ = (ids.filter (fun i => (store.map Filter.id).contains i)).length := hcomm
      _ = (ids.filter (fun i => store.any (fun f => f.id == i))).length := by rw [hpt]
  refine ⟨?_, ?_, ?_, hcount, ?_⟩
  · simp only [deleteFiltersRoute]
    rw [if_neg (by simpa using hne)]
  · simp only [deleteFiltersRoute]
    rw [if_neg (by simpa using hne)]
  · simp only [deleteFiltersRoute]
    rw [if_neg (by simpa using hne)]
  · simp only [deleteFiltersRoute]
    rw [if_neg (by simpa using hne)]
    refine congrArg some ?_
    have hsplit := length_filter_split (fun f => ids.contains f.id) store
    have hle : (store.filter (fun f => !(ids.contains f.id))).length ≤ store.length :=
      List.length_filter_le _ _
    omega

/-- Witness for C9: ids `["a", "x"]` against a two-record store holding ids
`"a"` and `"c"`; one id occurs, one record is removed, `deleted = 1`. -/
theorem deleteRoute_batch_delete_witness :
    (["a", "x"] : List String) ≠ []
    ∧ (["a", "x"] : List String).Nodup
    ∧ (([Filter.mk "a" "fa" [] "" none false false "" [] "",
         Filter.mk "c" "fc" [] "" none false false "" [] ""].map Filter.id).Nodup)
    ∧ ((deleteFiltersRoute (some ["a", "x"])
          [Filter.mk "a" "fa" [] "" none false false "" [] "",
           Filter.mk "c" "fc" [] "" none false false "" [] ""]).1.status = 200
      ∧ (deleteFiltersRoute (some ["a", "x"])
          [Filter.mk "a" "fa" [] "" none false false "" [] "",
           Filter.mk "c" "fc" [] "" none false false "" [] ""]).1.error = none
      ∧ (deleteFiltersRoute (some ["a", "x"])
          [Filter.mk "a" "fa" [] "" none false false "" [] "",
           Filter.mk "c" "fc" [] "" none false false "" [] ""]).2 =
          [Filter.mk "a" "fa" [] "" none false false "" [] "",
           Filter.mk "c" "fc" [] "" none false false "" [] ""].filter
            (fun f => !((["a", "x"] : List String).contains f.id))
      ∧ ([Filter.mk "a" "fa" [] "" none false false "" [] "",
          Filter.mk "c" "fc" [] "" none false false "" [] ""].filter
            (fun f => (["a", "x"] : List String).contains f.id)).length =
          ((["a", "x"] : List String).filter
            (fun i => [Filter.mk "a" "fa" [] "" none false false "" [] "",
                       Filter.mk "c" "fc" [] "" none false false "" [] ""].any
              (fun f => f.id == i))).length
      ∧ (deleteFiltersRoute (some ["a", "x"])
          [Filter.mk "a" "fa" [] "" none false false "" [] "",
           Filter.mk "c" "fc" [] "" none false false "" [] ""]).1.deleted =
          some (((["a", "x"] : List String).filter
            (fun i => [Filter.mk "a" "fa" [] "" none false false "" [] "",
                       Filter.mk "c" "fc" [] "" none false false "" [] ""].any
              (fun f => f.id == i))).length)) :=
  ⟨by decide, by decide, by decide,
    deleteRoute_batch_delete ["a", "x"]
      [Filter.mk "a" "fa" [] "" none false false "" [] "",
       Filter.mk "c" "fc" [] "" none false false "" [] ""]
      (by decide) (by decide) (by decide)⟩

end ProtonFilters
